import Mathlib

/-!
Verification of the fireworks particle system of this repository
(the `Fireworks` component: `resetParticle`, the per-frame `useFrame`
callback, and the opacity damping).

Modelling choices:
- Floating-point scalars are embedded as real numbers; the code uses
  transcendental functions (exp, sin, cos, acos), so the embedding is over ℝ.
- Every call to the ambient random source is made explicit: a reset consumes
  one `ResetDraws` record whose fields are the successive outputs of the
  random generator, each in the interval zero-inclusive to one-exclusive
  (`ResetDraws.valid`).
- The per-frame callback body for one particle index is `stepParticleTagged`;
  its Bool component records whether the recycle branch fired on that call.
  The whole frame is `advance`, a sequence of frames is `advanceSeq`.
-/

/-- A 3-component vector of reals (three.js Vector3 / a position triple in the
flat buffers). -/
structure Vec3 where
  x : ℝ
  y : ℝ
  z : ℝ

/-- An RGB color triple (three.js Color / a color triple in the flat buffers). -/
structure RGB where
  r : ℝ
  g : ℝ
  b : ℝ

/-- Number of firework bursts (source constant FIREWORK_COUNT = 100). -/
def FIREWORK_COUNT : Nat := 100

/-- Particles per burst (source constant PARTICLES_PER_FIREWORK = 10). -/
def PARTICLES_PER_FIREWORK : Nat := 10

/-- Total particle count (source constant TOTAL_PARTICLES). -/
def TOTAL_PARTICLES : Nat := FIREWORK_COUNT * PARTICLES_PER_FIREWORK

/-- The gravity constant of the source (GRAVITY = -4). -/
noncomputable def GRAVITY : ℝ := -4

/-- One particle of the pool: the slice of the parallel arrays
(positions, velocities, origins, baseColors, colors, ages, lifetimes)
at one index. -/
structure Particle where
  position : Vec3
  velocity : Vec3
  origin : Vec3
  baseColor : RGB
  color : RGB
  age : ℝ
  lifetime : ℝ

/-- The outputs of the successive random-source calls consumed by one
`resetParticle` call, in source order: three origin offsets, the direction
draws for theta and phi, the speed draw, the two color draws of
`randomColor`, the lifetime draw and the age draw. -/
structure ResetDraws where
  offX : ℝ
  offY : ℝ
  offZ : ℝ
  dirTheta : ℝ
  dirPhi : ℝ
  speedR : ℝ
  hue : ℝ
  satR : ℝ
  lifeR : ℝ
  ageR : ℝ

/-- Validity of a draw record: every field is an output of the random source,
hence in the interval from zero (inclusive) to one (exclusive). -/
def ResetDraws.valid (d : ResetDraws) : Prop :=
  0 ≤ d.offX ∧ d.offX < 1 ∧ 0 ≤ d.offY ∧ d.offY < 1 ∧
  0 ≤ d.offZ ∧ d.offZ < 1 ∧ 0 ≤ d.dirTheta ∧ d.dirTheta < 1 ∧
  0 ≤ d.dirPhi ∧ d.dirPhi < 1 ∧ 0 ≤ d.speedR ∧ d.speedR < 1 ∧
  0 ≤ d.hue ∧ d.hue < 1 ∧ 0 ≤ d.satR ∧ d.satR < 1 ∧
  0 ≤ d.lifeR ∧ d.lifeR < 1 ∧ 0 ≤ d.ageR ∧ d.ageR < 1

/-- three.js clamp helper: clamp value to the closed interval from lo to hi. -/
noncomputable def clamp (value lo hi : ℝ) : ℝ := max lo (min hi value)

/-- three.js hue2rgb helper used by Color.setHSL. -/
noncomputable def hue2rgb (p q t : ℝ) : ℝ :=
  let t1 := if t < 0 then t + 1 else t
  let t2 := if t1 > 1 then t1 - 1 else t1
  if t2 < 1 / 6 then p + (q - p) * 6 * t2
  else if t2 < 1 / 2 then q
  else if t2 < 2 / 3 then p + (q - p) * 6 * (2 / 3 - t2)
  else p

/-- three.js Color.setHSL (default working color space, so no further color
space conversion); euclideanModulo of the hue by one equals its fractional
part. -/
noncomputable def setHSL (h s l : ℝ) : RGB :=
  let h1 := Int.fract h
  let s1 := clamp s 0 1
  let l1 := clamp l 0 1
  if s1 = 0 then ⟨l1, l1, l1⟩
  else
    let p := if l1 ≤ 0.5 then l1 * (1 + s1) else l1 + s1 - l1 * s1
    let q := 2 * l1 - p
    ⟨hue2rgb q p (h1 + 1 / 3), hue2rgb q p h1, hue2rgb q p (h1 - 1 / 3)⟩

/-- The source's randomColor: a random hue, saturation 0.65 plus 0.2 times a
random draw, lightness 0.6. -/
noncomputable def randomColor (hueDraw satDraw : ℝ) : RGB :=
  setHSL hueDraw (0.65 + satDraw * 0.2) 0.6

/-- The speed scalar drawn by resetParticle: 1 + random * 1.4. -/
noncomputable def resetSpeed (d : ResetDraws) : ℝ := 1 + d.speedR * 1.4

/-- The azimuthal angle drawn by resetParticle: random * pi * 2. -/
noncomputable def resetTheta (d : ResetDraws) : ℝ := d.dirTheta * Real.pi * 2

/-- The polar angle drawn by resetParticle: acos (random * 2 - 1) * 0.9. -/
noncomputable def resetPhi (d : ResetDraws) : ℝ :=
  Real.arccos (d.dirPhi * 2 - 1) * 0.9

/-- The source's resetParticle at one index: draw a burst origin around the
anchor, a spherical-direction velocity with the y component scaled by 1.2,
a random base color; set the color black, the position to the origin, a fresh
lifetime 1.6 + random * 1.3 and age minus random times 1.2. -/
noncomputable def resetParticle (baseOrigin : Vec3) (d : ResetDraws) : Particle :=
  { origin := ⟨baseOrigin.x + (d.offX - 0.5) * 1000,
               baseOrigin.y + d.offY * 200,
               baseOrigin.z + (d.offZ - 0.5) * 1000⟩
    velocity := ⟨Real.sin (resetPhi d) * Real.cos (resetTheta d) * resetSpeed d,
                 Real.cos (resetPhi d) * (resetSpeed d * 1.2),
                 Real.sin (resetPhi d) * Real.sin (resetTheta d) * resetSpeed d⟩
    baseColor := randomColor d.hue d.satR
    color := ⟨0, 0, 0⟩
    position := ⟨baseOrigin.x + (d.offX - 0.5) * 1000,
                 baseOrigin.y + d.offY * 200,
                 baseOrigin.z + (d.offZ - 0.5) * 1000⟩
    age := -(d.ageR * 1.2)
    lifetime := 1.6 + d.lifeR * 1.3 }

/-- The initialization effect: resetParticle on every index once. -/
noncomputable def resetAll (baseOrigin : Vec3)
    (draws : Fin TOTAL_PARTICLES → ResetDraws) : Fin TOTAL_PARTICLES → Particle :=
  fun i => resetParticle baseOrigin (draws i)

/-- The body of the per-particle loop of the useFrame callback, for one
particle: add delta to the age; if the age is still negative hold the
position at the origin and the color at black; else if the age exceeds the
lifetime or the stored vertical position is below the floor threshold,
recycle via resetParticle; else integrate the position kinematically and
fade the color. The Bool records whether the recycle branch fired. -/
noncomputable def stepParticleTagged (baseOrigin : Vec3) (delta : ℝ)
    (d : ResetDraws) (p : Particle) : Bool × Particle :=
  if p.age + delta < 0 then
    (false, { p with age := p.age + delta, position := p.origin, color := ⟨0, 0, 0⟩ })
  else if p.age + delta > p.lifetime ∨ p.position.y < baseOrigin.y - 1.5 then
    (true, resetParticle baseOrigin d)
  else
    (false,
      { p with
        age := p.age + delta
        position :=
          ⟨p.origin.x + p.velocity.x * (p.age + delta),
           p.origin.y + p.velocity.y * (p.age + delta) +
             0.5 * GRAVITY * (p.age + delta) * (p.age + delta),
           p.origin.z + p.velocity.z * (p.age + delta)⟩
        color :=
          ⟨p.baseColor.r * max 0 (1 - (p.age + delta) / p.lifetime),
           p.baseColor.g * max 0 (1 - (p.age + delta) / p.lifetime),
           p.baseColor.b * max 0 (1 - (p.age + delta) / p.lifetime)⟩ })

namespace MathUtils

/-- three.js MathUtils.lerp. -/
noncomputable def lerp (x y t : ℝ) : ℝ := (1 - t) * x + t * y

/-- three.js MathUtils.damp: frame-rate independent approach of x toward y. -/
noncomputable def damp (x y lambda dt : ℝ) : ℝ :=
  lerp x y (1 - Real.exp (-lambda * dt))

end MathUtils

/-- The reference damping definition, stated as the specification writes it:
value plus (target minus value) times (1 - exp (-rate * delta)). Used only to
compare against the update the code performs. -/
noncomputable def dampRef (value target rate delta : ℝ) : ℝ :=
  value + (target - value) * (1 - Real.exp (-rate * delta))

/-- The mutable state of the component that the useFrame callback touches:
the particle pool and the material opacity (the spec's visibility scalar). -/
structure FireworksState where
  particles : Fin TOTAL_PARTICLES → Particle
  opacity : ℝ

/-- One useFrame callback invocation: when inactive, damp the opacity toward 0
with rate 5 and leave the particles alone; when active, damp the opacity
toward 0.85 with rate 2.5 and run the per-particle loop. -/
noncomputable def advance (baseOrigin : Vec3) (delta : ℝ) (isActive : Bool)
    (draws : Fin TOTAL_PARTICLES → ResetDraws) (s : FireworksState) :
    FireworksState :=
  if isActive = false then
    { s with opacity := MathUtils.damp s.opacity 0 5 delta }
  else
    { particles := fun i => (stepParticleTagged baseOrigin delta (draws i) (s.particles i)).2
      opacity := MathUtils.damp s.opacity 0.85 2.5 delta }

/-- The inputs of one frame: the measured delta, the activity flag, and the
random draws available to the recycles of that frame. -/
structure FrameInput where
  delta : ℝ
  isActive : Bool
  draws : Fin TOTAL_PARTICLES → ResetDraws

/-- A sequence of useFrame invocations, first call first. -/
noncomputable def advanceSeq (baseOrigin : Vec3) (calls : List FrameInput)
    (s : FireworksState) : FireworksState :=
  calls.foldl (fun st c => advance baseOrigin c.delta c.isActive c.draws st) s

/-! Concrete fixtures for counterexamples and witnesses. -/

/-- The default anchor of the component: origin prop [0, 5, -14]. -/
noncomputable def anch0 : Vec3 := ⟨0, 5, -14⟩

/-- The all-zero draw record; every random call returned 0, which is a
possible output of the random source. -/
noncomputable def d0 : ResetDraws := ⟨0, 0, 0, 0, 0, 0, 0, 0, 0, 0⟩

/-- The all-one-half draw record. -/
noncomputable def dHalf : ResetDraws :=
  ⟨0.5, 0.5, 0.5, 0.5, 0.5, 0.5, 0.5, 0.5, 0.5, 0.5⟩

/-- A live particle sitting at rest at height 5 whose parabolic fall will
cross the floor threshold during the next frame. -/
noncomputable def pFloor : Particle :=
  { position := ⟨0, 5, 0⟩, velocity := ⟨0, 0, 0⟩, origin := ⟨0, 5, 0⟩,
    baseColor := ⟨1, 1, 1⟩, color := ⟨1, 1, 1⟩, age := 0, lifetime := 3 }

/-- The particle of the specification's kinematic check: origin (0, 10, 0),
velocity (0, 2, 0). -/
noncomputable def pKin : Particle :=
  { position := ⟨0, 10, 0⟩, velocity := ⟨0, 2, 0⟩, origin := ⟨0, 10, 0⟩,
    baseColor := ⟨1, 0, 0⟩, color := ⟨1, 0, 0⟩, age := 0, lifetime := 2 }

/-- A delayed particle (negative age). -/
noncomputable def pDelay : Particle :=
  { position := ⟨0, 7, 0⟩, velocity := ⟨0, 2, 0⟩, origin := ⟨0, 7, 0⟩,
    baseColor := ⟨0, 1, 0⟩, color := ⟨0.5, 0.5, 0.5⟩, age := -1, lifetime := 2 }

/-- A mid-flight particle used for the negative-delta scenario. -/
noncomputable def pNeg : Particle :=
  { position := ⟨0, 9, 0⟩, velocity := ⟨0, 2, 0⟩, origin := ⟨0, 10, 0⟩,
    baseColor := ⟨1, 0, 0⟩, color := ⟨1, 0, 0⟩, age := 1, lifetime := 2 }

/-- A concrete initial state with opacity one half. -/
noncomputable def sHalf : FireworksState := ⟨fun _ => pFloor, 0.5⟩

/-- A concrete initial state with opacity zero (the material starts at
opacity 0). -/
noncomputable def sZero : FireworksState := ⟨fun _ => pFloor, 0⟩

/-! Branch lemmas for the per-particle step. -/

/-- Hold branch: when the incremented age is still negative, the step holds
the position at the origin, blacks the color, and does not recycle. -/
theorem step_hold (baseOrigin : Vec3) (delta : ℝ) (d : ResetDraws)
    (p : Particle) (h : p.age + delta < 0) :
    stepParticleTagged baseOrigin delta d p =
      (false, { p with age := p.age + delta, position := p.origin,
                       color := ⟨0, 0, 0⟩ }) := by
  unfold stepParticleTagged
  rw [if_pos h]

/-- Recycle branch: nonnegative incremented age together with an exceeded
lifetime or a stored position below the floor threshold recycles. -/
theorem step_recycle (baseOrigin : Vec3) (delta : ℝ) (d : ResetDraws)
    (p : Particle) (h0 : ¬ p.age + delta < 0)
    (h1 : p.age + delta > p.lifetime ∨ p.position.y < baseOrigin.y - 1.5) :
    stepParticleTagged baseOrigin delta d p = (true, resetParticle baseOrigin d) := by
  unfold stepParticleTagged
  rw [if_neg h0, if_pos h1]

/-- Live branch: nonnegative incremented age, lifetime not exceeded, stored
position at or above the floor threshold; integrate and fade. -/
theorem step_live (baseOrigin : Vec3) (delta : ℝ) (d : ResetDraws)
    (p : Particle) (h0 : ¬ p.age + delta < 0)
    (h1 : ¬ (p.age + delta > p.lifetime ∨ p.position.y < baseOrigin.y - 1.5)) :
    stepParticleTagged baseOrigin delta d p =
      (false,
        { p with
          age := p.age + delta
          position :=
            ⟨p.origin.x + p.velocity.x * (p.age + delta),
             p.origin.y + p.velocity.y * (p.age + delta) +
               0.5 * GRAVITY * (p.age + delta) * (p.age + delta),
             p.origin.z + p.velocity.z * (p.age + delta)⟩
          color :=
            ⟨p.baseColor.r * max 0 (1 - (p.age + delta) / p.lifetime),
             p.baseColor.g * max 0 (1 - (p.age + delta) / p.lifetime),
             p.baseColor.b * max 0 (1 - (p.age + delta) / p.lifetime)⟩ }) := by
  unfold stepParticleTagged
  rw [if_neg h0, if_neg h1]

/-! Damping bounds. -/

/-- For a nonnegative delta and positive rate, the damping factor lies in the
closed unit interval. -/
theorem damp_factor_bounds (r dt : ℝ) (hr : 0 < r) (hdt : 0 ≤ dt) :
    0 ≤ 1 - Real.exp (-r * dt) ∧ 1 - Real.exp (-r * dt) ≤ 1 := by
  have hexp : Real.exp (-r * dt) ≤ 1 := by
    apply Real.exp_le_one_iff.mpr
    nlinarith
  have hpos : 0 < Real.exp (-r * dt) := Real.exp_pos _
  constructor <;> nlinarith

/-- Damping toward a target between 0 and 0.85, from a value between 0 and
0.85, stays between 0 and 0.85. -/
theorem damp_range (v t r dt : ℝ) (hr : 0 < r) (hdt : 0 ≤ dt)
    (hv0 : 0 ≤ v) (hv1 : v ≤ 0.85) (ht0 : 0 ≤ t) (ht1 : t ≤ 0.85) :
    0 ≤ MathUtils.damp v t r dt ∧ MathUtils.damp v t r dt ≤ 0.85 := by
  obtain ⟨hf0, hf1⟩ := damp_factor_bounds r dt hr hdt
  unfold MathUtils.damp MathUtils.lerp
  constructor <;> nlinarith

/-- Damping a nonnegative value toward 0 with a nonnegative delta yields a
value between 0 and the starting value. -/
theorem damp_to_zero (v r dt : ℝ) (hr : 0 < r) (hdt : 0 ≤ dt) (hv : 0 ≤ v) :
    0 ≤ MathUtils.damp v 0 r dt ∧ MathUtils.damp v 0 r dt ≤ v := by
  obtain ⟨hf0, hf1⟩ := damp_factor_bounds r dt hr hdt
  unfold MathUtils.damp MathUtils.lerp
  constructor <;> nlinarith

/-! Claim theorems. -/

/-- Claim C1, counterexample to the claim as stated: for the concrete particle
pFloor and delta 1, the integration performed by the call writes a vertical
position below the floor threshold anch0.y - 1.5, yet the recycle branch does
not fire on that same call (the flag is false and the age advances to 1,
whereas a recycle would set a nonpositive age). -/
theorem c1_same_call_counterexample :
    (stepParticleTagged anch0 1 d0 pFloor).2.position.y < anch0.y - 1.5 ∧
    (stepParticleTagged anch0 1 d0 pFloor).1 = false ∧
    (stepParticleTagged anch0 1 d0 pFloor).2.age = 1 := by
  rw [step_live anch0 1 d0 pFloor (by norm_num [pFloor])
    (by push_neg; norm_num [pFloor, anch0])]
  norm_num [pFloor, anch0, GRAVITY]

/-- Claim C1 as amended: with nonnegative incremented age, the recycle fires
exactly when that age exceeds the lifetime or the STORED vertical position
(written by the previous call) is below anchor.y - 1.5; consequently, a call
that is not a recycle but writes a vertical position below the floor makes
the NEXT call (with nonnegative delta) recycle — one call later than the
claim states. -/
theorem c1_recycle_characterization (baseOrigin : Vec3) (delta delta2 : ℝ)
    (d d2 : ResetDraws) (p : Particle) (h : 0 ≤ p.age + delta) :
    ((stepParticleTagged baseOrigin delta d p).1 = true ↔
      p.age + delta > p.lifetime ∨ p.position.y < baseOrigin.y - 1.5) ∧
    (0 ≤ delta2 →
      (stepParticleTagged baseOrigin delta d p).1 = false →
      (stepParticleTagged baseOrigin delta d p).2.position.y < baseOrigin.y - 1.5 →
      (stepParticleTagged baseOrigin delta2 d2
        (stepParticleTagged baseOrigin delta d p).2).1 = true) := by
  have h0 : ¬ p.age + delta < 0 := not_lt.mpr h
  by_cases hc : p.age + delta > p.lifetime ∨ p.position.y < baseOrigin.y - 1.5
  · rw [step_recycle baseOrigin delta d p h0 hc]
    exact ⟨by simpa using hc, fun _ hfalse _ => by simp at hfalse⟩
  · rw [step_live baseOrigin delta d p h0 hc]
    refine ⟨by simpa using hc, fun hd2 _ hlow => ?_⟩
    rw [step_recycle baseOrigin delta2 d2 _ (by simp; linarith) (Or.inr hlow)]

/-- Claim C1 witness: for pFloor the first call writes a below-floor position
without recycling, and the second call then recycles. -/
theorem c1_witness :
    (stepParticleTagged anch0 1 d0 (stepParticleTagged anch0 1 d0 pFloor).2).1 = true := by
  have hlive := step_live anch0 1 d0 pFloor (by norm_num [pFloor])
    (by push_neg; norm_num [pFloor, anch0])
  apply (c1_recycle_characterization anch0 1 1 d0 d0 pFloor
    (by norm_num [pFloor])).2 (by norm_num)
  · rw [hlive]
  · rw [hlive]; norm_num [pFloor, anch0, GRAVITY]

/-- Claim C2: when the incremented age is in the live window and the stored
position is at or above the floor threshold, the call does not recycle and
writes the kinematic position (linear in x and z, parabolic in y with
GRAVITY = -4) and the faded color baseColor * max 0 (1 - age / lifetime). -/
theorem c2_kinematic_integration (baseOrigin : Vec3) (delta : ℝ)
    (d : ResetDraws) (p : Particle) (h0 : 0 ≤ p.age + delta)
    (h1 : p.age + delta ≤ p.lifetime)
    (h2 : baseOrigin.y - 1.5 ≤ p.position.y) :
    GRAVITY = -4 ∧
    (stepParticleTagged baseOrigin delta d p).1 = false ∧
    (stepParticleTagged baseOrigin delta d p).2.position.x =
      p.origin.x + p.velocity.x * (p.age + delta) ∧
    (stepParticleTagged baseOrigin delta d p).2.position.y =
      p.origin.y + p.velocity.y * (p.age + delta) +
        0.5 * GRAVITY * (p.age + delta) * (p.age + delta) ∧
    (stepParticleTagged baseOrigin delta d p).2.position.z =
      p.origin.z + p.velocity.z * (p.age + delta) ∧
    (stepParticleTagged baseOrigin delta d p).2.color.r =
      p.baseColor.r * max 0 (1 - (p.age + delta) / p.lifetime) ∧
    (stepParticleTagged baseOrigin delta d p).2.color.g =
      p.baseColor.g * max 0 (1 - (p.age + delta) / p.lifetime) ∧
    (stepParticleTagged baseOrigin delta d p).2.color.b =
      p.baseColor.b * max 0 (1 - (p.age + delta) / p.lifetime) := by
  have hn : ¬ p.age + delta < 0 := not_lt.mpr h0
  have hc : ¬ (p.age + delta > p.lifetime ∨ p.position.y < baseOrigin.y - 1.5) := by
    push_neg
    exact ⟨h1, h2⟩
  rw [step_live baseOrigin delta d p hn hc]
  exact ⟨rfl, rfl, rfl, rfl, rfl, rfl, rfl, rfl⟩

/-- Claim C2 witness: the specification's kinematic check. For pKin with
origin (0, 10, 0) and velocity (0, 2, 0), at age 1 the written position is
(0, 10, 0). -/
theorem c2_witness :
    (stepParticleTagged anch0 1 d0 pKin).2.position.y = 10 ∧
    (stepParticleTagged anch0 1 d0 pKin).2.position.x = 0 ∧
    (stepParticleTagged anch0 1 d0 pKin).2.position.z = 0 := by
  obtain ⟨-, -, hx, hy, hz, -, -, -⟩ :=
    c2_kinematic_integration anch0 1 d0 pKin (by norm_num [pKin])
      (by norm_num [pKin]) (by norm_num [pKin, anch0])
  refine ⟨?_, ?_, ?_⟩
  · rw [hy]; norm_num [pKin, GRAVITY]
  · rw [hx]; norm_num [pKin]
  · rw [hz]; norm_num [pKin]

/-- Claim C3: a particle whose age is still negative after the increment is
held at its origin with black color, its age stays negative, and the call
does not recycle it. -/
theorem c3_delayed_hold (baseOrigin : Vec3) (delta : ℝ) (d : ResetDraws)
    (p : Particle) (h : p.age + delta < 0) :
    (stepParticleTagged baseOrigin delta d p).1 = false ∧
    (stepParticleTagged baseOrigin delta d p).2.age < 0 ∧
    (stepParticleTagged baseOrigin delta d p).2.color = ⟨0, 0, 0⟩ ∧
    (stepParticleTagged baseOrigin delta d p).2.position =
      (stepParticleTagged baseOrigin delta d p).2.origin := by
  rw [step_hold baseOrigin delta d p h]
  exact ⟨rfl, h, rfl, rfl⟩

/-- Claim C3 witness at the delayed particle pDelay with delta one half. -/
theorem c3_witness :
    (stepParticleTagged anch0 0.5 d0 pDelay).1 = false ∧
    (stepParticleTagged anch0 0.5 d0 pDelay).2.age < 0 ∧
    (stepParticleTagged anch0 0.5 d0 pDelay).2.color = ⟨0, 0, 0⟩ ∧
    (stepParticleTagged anch0 0.5 d0 pDelay).2.position =
      (stepParticleTagged anch0 0.5 d0 pDelay).2.origin :=
  c3_delayed_hold anch0 0.5 d0 pDelay (by norm_num [pDelay])

/-- Claim C4, counterexample to the claim as stated: the all-zero draw record
is a possible output of the random source, and with it resetParticle assigns
age zero, which is not negative. -/
theorem c4_zero_age_counterexample :
    ResetDraws.valid d0 ∧ ¬ (resetParticle anch0 d0).age < 0 := by
  constructor
  · norm_num [ResetDraws.valid, d0]
  · norm_num [resetParticle, d0]

/-- Claim C4 as amended: for every valid draw record, resetParticle sets the
position equal to the freshly drawn origin, blacks the color, draws the
lifetime in the interval 1.6 inclusive to 2.9 exclusive, draws the speed
scalar in the interval 1 inclusive to 2.4 exclusive (the vertical velocity
component is that scalar times 1.2 times the cosine of the polar angle), and
sets the age to minus the draw times 1.2: a value in the interval minus 1.2
exclusive to 0 inclusive, strictly negative exactly when the draw is
nonzero. -/
theorem c4_reset_postconditions (baseOrigin : Vec3) (d : ResetDraws)
    (h : d.valid) :
    (resetParticle baseOrigin d).position = (resetParticle baseOrigin d).origin ∧
    (resetParticle baseOrigin d).color = ⟨0, 0, 0⟩ ∧
    1.6 ≤ (resetParticle baseOrigin d).lifetime ∧
    (resetParticle baseOrigin d).lifetime < 2.9 ∧
    1 ≤ resetSpeed d ∧ resetSpeed d < 2.4 ∧
    (resetParticle baseOrigin d).velocity.y =
      Real.cos (resetPhi d) * (resetSpeed d * 1.2) ∧
    -1.2 < (resetParticle baseOrigin d).age ∧
    (resetParticle baseOrigin d).age ≤ 0 ∧
    (0 < d.ageR → (resetParticle baseOrigin d).age < 0) := by
  obtain ⟨-, -, -, -, -, -, -, -, -, -, hs0, hs1, -, -, -, -, hl0, hl1, ha0, ha1⟩ := h
  refine ⟨rfl, rfl, ?_, ?_, ?_, ?_, rfl, ?_, ?_, fun hpos => ?_⟩
  · simp only [resetParticle]
    nlinarith
  · simp only [resetParticle]
    nlinarith
  · simp only [resetSpeed]
    nlinarith
  · simp only [resetSpeed]
    nlinarith
  · simp only [resetParticle]
    nlinarith
  · simp only [resetParticle]
    nlinarith
  · simp only [resetParticle]
    nlinarith

/-- Claim C4 witness at the all-one-half draw record. -/
theorem c4_witness :
    1.6 ≤ (resetParticle anch0 dHalf).lifetime ∧
    (resetParticle anch0 dHalf).lifetime < 2.9 ∧
    1 ≤ resetSpeed dHalf ∧ resetSpeed dHalf < 2.4 ∧
    (resetParticle anch0 dHalf).age < 0 := by
  obtain ⟨-, -, h3, h4, h5, h6, -, -, -, h10⟩ :=
    c4_reset_postconditions anch0 dHalf (by norm_num [ResetDraws.valid, dHalf])
  exact ⟨h3, h4, h5, h6, h10 (by norm_num [dHalf])⟩

/-- Claim C5, counterexample to the claim as stated: a negative delta is not
clamped to a no-op — for pNeg (age 1, stored position (0, 9, 0)) a call with
delta minus 2 rewinds the age to minus 1 and moves the stored position back
to the origin, mutating the state. -/
theorem c5_negative_delta_counterexample :
    (stepParticleTagged anch0 (-2) d0 pNeg).2.age = -1 ∧
    (stepParticleTagged anch0 (-2) d0 pNeg).2.age ≠ pNeg.age ∧
    (stepParticleTagged anch0 (-2) d0 pNeg).2.position.y ≠ pNeg.position.y := by
  rw [step_hold anch0 (-2) d0 pNeg (by norm_num [pNeg])]
  norm_num [pNeg]

/-- Claim C5 as amended: the callback is a total function that never rejects
its input; a negative delta is not clamped but applied — on every
non-recycling call the written age is exactly the old age plus delta,
whatever the sign of delta. -/
theorem c5_delta_always_applied (baseOrigin : Vec3) (delta : ℝ)
    (d : ResetDraws) (p : Particle)
    (h : (stepParticleTagged baseOrigin delta d p).1 = false) :
    (stepParticleTagged baseOrigin delta d p).2.age = p.age + delta := by
  unfold stepParticleTagged at h ⊢
  split_ifs at h ⊢
  all_goals rfl

/-- Claim C5 witness: the negative delta minus 2 is applied to pNeg. -/
theorem c5_witness :
    (stepParticleTagged anch0 (-2) d0 pNeg).2.age = pNeg.age + (-2) := by
  apply c5_delta_always_applied
  rw [step_hold anch0 (-2) d0 pNeg (by norm_num [pNeg])]

/-- Unfolding a sequence of frames one call at a time. -/
theorem advanceSeq_cons (baseOrigin : Vec3) (c : FrameInput)
    (cs : List FrameInput) (s : FireworksState) :
    advanceSeq baseOrigin (c :: cs) s =
      advanceSeq baseOrigin cs (advance baseOrigin c.delta c.isActive c.draws s) :=
  rfl

/-- Claim C6: over any sequence of inactive frames with nonnegative deltas,
the particle pool is left untouched (hence every particle field is unchanged)
and the opacity decays monotonically, staying between 0 and its starting
value. -/
theorem c6_inactive_frames (baseOrigin : Vec3) (calls : List FrameInput) :
    ∀ s : FireworksState,
      (∀ c ∈ calls, c.isActive = false ∧ 0 ≤ c.delta) → 0 ≤ s.opacity →
      (advanceSeq baseOrigin calls s).particles = s.particles ∧
      0 ≤ (advanceSeq baseOrigin calls s).opacity ∧
      (advanceSeq baseOrigin calls s).opacity ≤ s.opacity := by
  induction calls with
  | nil => exact fun s _ h0 => ⟨rfl, h0, le_refl _⟩
  | cons c cs ih =>
    intro s hc h0
    obtain ⟨hact, hdel⟩ := hc c (List.mem_cons_self c cs)
    have hstep : advance baseOrigin c.delta c.isActive c.draws s =
        { s with opacity := MathUtils.damp s.opacity 0 5 c.delta } := by
      simp [advance, hact]
    have hb := damp_to_zero s.opacity 5 c.delta (by norm_num) hdel h0
    rw [advanceSeq_cons, hstep]
    obtain ⟨hp, ho1, ho2⟩ := ih { s with opacity := MathUtils.damp s.opacity 0 5 c.delta }
      (fun x hx => hc x (List.mem_cons_of_mem c hx)) hb.1
    exact ⟨hp, ho1, le_trans ho2 hb.2⟩

/-- Claim C6 witness: one inactive frame of delta 1 from opacity one half. -/
theorem c6_witness :
    (advanceSeq anch0 [⟨1, false, fun _ => d0⟩] sHalf).particles = sHalf.particles ∧
    0 ≤ (advanceSeq anch0 [⟨1, false, fun _ => d0⟩] sHalf).opacity ∧
    (advanceSeq anch0 [⟨1, false, fun _ => d0⟩] sHalf).opacity ≤ sHalf.opacity := by
  apply c6_inactive_frames anch0 _ sHalf ?_ (by norm_num [sHalf])
  intro c hcm
  simp only [List.mem_singleton] at hcm
  rw [hcm]
  exact ⟨rfl, by norm_num⟩

/-- One frame, active or not, keeps the opacity between 0 and 0.85 when its
delta is nonnegative. -/
theorem advance_opacity_range (baseOrigin : Vec3) (delta : ℝ) (b : Bool)
    (draws : Fin TOTAL_PARTICLES → ResetDraws) (s : FireworksState)
    (hd : 0 ≤ delta) (h0 : 0 ≤ s.opacity) (h1 : s.opacity ≤ 0.85) :
    0 ≤ (advance baseOrigin delta b draws s).opacity ∧
    (advance baseOrigin delta b draws s).opacity ≤ 0.85 := by
  cases b
  · have hr := damp_range s.opacity 0 5 delta (by norm_num) hd h0 h1
      (le_refl 0) (by norm_num)
    simpa [advance] using hr
  · have hr := damp_range s.opacity 0.85 2.5 delta (by norm_num) hd h0 h1
      (by norm_num) (le_refl _)
    simpa [advance] using hr

/-- Any sequence of frames with nonnegative deltas keeps the opacity between
0 and 0.85 if it starts there. -/
theorem advanceSeq_opacity_range (baseOrigin : Vec3) (calls : List FrameInput) :
    ∀ s : FireworksState, (∀ c ∈ calls, 0 ≤ c.delta) →
      0 ≤ s.opacity → s.opacity ≤ 0.85 →
      0 ≤ (advanceSeq baseOrigin calls s).opacity ∧
      (advanceSeq baseOrigin calls s).opacity ≤ 0.85 := by
  induction calls with
  | nil => exact fun s _ h0 h1 => ⟨h0, h1⟩
  | cons c cs ih =>
    intro s hc h0 h1
    obtain ⟨h0s, h1s⟩ := advance_opacity_range baseOrigin c.delta c.isActive
      c.draws s (hc c (List.mem_cons_self c cs)) h0 h1
    rw [advanceSeq_cons]
    exact ih _ (fun x hx => hc x (List.mem_cons_of_mem c hx)) h0s h1s

/-- Claim C7: starting from opacity 0, every sequence of frames with
arbitrary activity flags and nonnegative deltas keeps the opacity within
0 to 0.85. -/
theorem c7_visibility_invariant (baseOrigin : Vec3) (calls : List FrameInput)
    (s : FireworksState) (h0 : s.opacity = 0)
    (hd : ∀ c ∈ calls, 0 ≤ c.delta) :
    0 ≤ (advanceSeq baseOrigin calls s).opacity ∧
    (advanceSeq baseOrigin calls s).opacity ≤ 0.85 :=
  advanceSeq_opacity_range baseOrigin calls s hd (by rw [h0]) (by rw [h0]; norm_num)

/-- Claim C7 witness: an active frame then an inactive frame from the
zero-opacity state. -/
theorem c7_witness :
    0 ≤ (advanceSeq anch0 [⟨1, true, fun _ => d0⟩, ⟨2, false, fun _ => d0⟩] sZero).opacity ∧
    (advanceSeq anch0 [⟨1, true, fun _ => d0⟩, ⟨2, false, fun _ => d0⟩] sZero).opacity ≤ 0.85 := by
  apply c7_visibility_invariant anch0 _ sZero rfl
  intro c hcm
  simp only [List.mem_cons, List.mem_singleton] at hcm
  rcases hcm with hcm | hcm | hcm
  · rw [hcm]; norm_num
  · rw [hcm]; norm_num
  · cases hcm

/-- Claim C8: the opacity update the callback performs is exactly the
reference damping definition, with target 0 and rate 5 when inactive, and
target 0.85 and rate 2.5 when active. -/
theorem c8_damp_refinement (baseOrigin : Vec3) (delta : ℝ)
    (draws : Fin TOTAL_PARTICLES → ResetDraws) (s : FireworksState) :
    (advance baseOrigin delta false draws s).opacity =
      dampRef s.opacity 0 5 delta ∧
    (advance baseOrigin delta true draws s).opacity =
      dampRef s.opacity 0.85 2.5 delta := by
  constructor <;>
    · simp [advance, MathUtils.damp, MathUtils.lerp, dampRef]
      ring

/-- Claim C9: the pool holds 1000 particles, and after the initialization
effect with valid random draws every lifetime is at least 1.6, hence
positive and nonzero, so the divisor of the fade computation age divided by
lifetime is never zero. -/
theorem c9_lifetime_never_zero (baseOrigin : Vec3)
    (draws : Fin TOTAL_PARTICLES → ResetDraws)
    (h : ∀ i, (draws i).valid) :
    TOTAL_PARTICLES = 1000 ∧
    ∀ i, 1.6 ≤ (resetAll baseOrigin draws i).lifetime ∧
      0 < (resetAll baseOrigin draws i).lifetime ∧
      (resetAll baseOrigin draws i).lifetime ≠ 0 := by
  refine ⟨rfl, fun i => ?_⟩
  obtain ⟨-, -, -, -, -, -, -, -, -, -, -, -, -, -, -, -, hl0, -, -, -⟩ := h i
  have h16 : (1.6 : ℝ) ≤ (resetAll baseOrigin draws i).lifetime := by
    simp only [resetAll, resetParticle]
    nlinarith
  have hpos : (0 : ℝ) < (resetAll baseOrigin draws i).lifetime := by linarith
  exact ⟨h16, hpos, ne_of_gt hpos⟩

/-- Claim C9 witness at index 0 of an all-one-half initialization. -/
theorem c9_witness :
    1.6 ≤ (resetAll anch0 (fun _ => dHalf) ⟨0, by decide⟩).lifetime ∧
    (resetAll anch0 (fun _ => dHalf) ⟨0, by decide⟩).lifetime ≠ 0 :=
  ⟨((c9_lifetime_never_zero anch0 (fun _ => dHalf)
      (fun _ => by norm_num [ResetDraws.valid, dHalf])).2 ⟨0, by decide⟩).1,
   ((c9_lifetime_never_zero anch0 (fun _ => dHalf)
      (fun _ => by norm_num [ResetDraws.valid, dHalf])).2 ⟨0, by decide⟩).2.2⟩

/-- Claim C10: the polar angle acos (2 random - 1) * 0.9 always lies between
0 and 0.9 pi; the upward bias is not strict: when the phi draw is 0 the angle
is exactly 0.9 pi, whose cosine is negative, and the reset then assigns a
negative (downward) initial vertical velocity component. -/
theorem c10_downward_bias_not_strict (baseOrigin : Vec3) (d : ResetDraws)
    (h : d.valid) :
    0 ≤ resetPhi d ∧ resetPhi d ≤ 0.9 * Real.pi ∧
    (d.dirPhi = 0 →
      resetPhi d = 0.9 * Real.pi ∧ Real.cos (resetPhi d) < 0 ∧
      (resetParticle baseOrigin d).velocity.y < 0) := by
  obtain ⟨-, -, -, -, -, -, -, -, -, -, hs0, -, -, -, -, -, -, -, -, -⟩ := h
  refine ⟨?_, ?_, fun h0 => ?_⟩
  · exact mul_nonneg (Real.arccos_nonneg _) (by norm_num)
  · have harc := Real.arccos_le_pi (d.dirPhi * 2 - 1)
    unfold resetPhi
    nlinarith [Real.pi_pos]
  · have hphi : resetPhi d = 0.9 * Real.pi := by
      unfold resetPhi
      rw [h0]
      norm_num [Real.arccos_neg_one]
      ring
    have hcos : Real.cos (resetPhi d) < 0 := by
      rw [hphi]
      apply Real.cos_neg_of_pi_div_two_lt_of_lt
      · nlinarith [Real.pi_pos]
      · nlinarith [Real.pi_pos]
    have hspeed : (0 : ℝ) < resetSpeed d * 1.2 := by
      unfold resetSpeed
      nlinarith
    refine ⟨hphi, hcos, ?_⟩
    show Real.cos (resetPhi d) * (resetSpeed d * 1.2) < 0
    exact mul_neg_of_neg_of_pos hcos hspeed

/-- Claim C10 witness: the all-zero draw record has phi draw 0 and yields a
downward initial vertical velocity. -/
theorem c10_witness :
    Real.cos (resetPhi d0) < 0 ∧ (resetParticle anch0 d0).velocity.y < 0 := by
  obtain ⟨-, -, himp⟩ := c10_downward_bias_not_strict anch0 d0
    (by norm_num [ResetDraws.valid, d0])
  obtain ⟨-, hc, hv⟩ := himp (by norm_num [d0])
  exact ⟨hc, hv⟩
